import Mathlib

/-!
Verification of the queue orchestrator in `src/execute-prps.py`.

Shallow embedding conventions:
- `datetime` values are modelled as `Int` seconds; `timedelta(hours=1)` is `3600`,
  `timedelta(minutes=m)` is `m * 60`.  Python's `int(x)` on the nonnegative values
  that occur here is truncation, matching `Int.toNat` followed by `Nat` division.
- The persisted JSON state file is modelled as `Option (Option StateData)`:
  `none` = the file does not exist, `some none` = the file exists but `json.load`
  raises (corrupt/partial content), `some (some d)` = the file parses to `d`.
- Raised Python exceptions are modelled as `Except String` values carrying the
  exception message.
- Filesystem paths are rendered relative to the project root (the absolute
  `PROJECT_ROOT` prefix of the original is elided from names and log messages).
- External collaborator scripts (`collect-prp-context.sh`, `create-batch-request.sh`,
  `submit-batch.sh`) are opaque: an `Env` record says whether each invocation
  succeeds and what files the submission results directories contain, and the
  model records the sequence of invocations as a `ScriptCall` trace.
-/

namespace ExecutePrps

/-- `pathlib.PurePath.suffix`: the file extension of the final component.  It is
nonempty exactly when the last dot sits at an index `i` with `0 < i < len - 1`
(so `".md"`, `"a."` and `"a"` all have suffix `""`, while `"a.md"` has `".md"`). -/
def pathSuffix (name : String) : String :=
  let cs := name.toList
  match ((List.range cs.length).filter (fun i => cs.get? i = some ('.'))).getLast? with
  | none => ""
  | some i => if 0 < i && i + 1 < cs.length then String.mk (cs.drop i) else ""

/-- `pathlib.PurePath.stem`: the final component without its suffix. -/
def pathStem (name : String) : String :=
  let cs := name.toList
  String.mk (cs.take (cs.length - (pathSuffix name).toList.length))

/-- Python's `str.endswith` (and the effect of the glob pattern `*.md`, which
`fnmatch` turns into `.*\.md`): the name ends with the given suffix.  Defined
on the character list so it evaluates by kernel reduction. -/
def strEndsWith (s post : String) : Bool :=
  let cs := s.toList
  let ps := post.toList
  Nat.ble ps.length cs.length && cs.drop (cs.length - ps.length) == ps

/-- Substring search on character lists (structural recursion on the hay). -/
def containsSubChars (needle : List Char) : List Char → Bool
  | [] => needle.isEmpty
  | c :: tl => needle.isPrefixOf (c :: tl) || containsSubChars needle tl

/-- Python's substring test `needle in hay`. -/
def containsSub (hay needle : String) : Bool :=
  containsSubChars needle.toList hay.toList

/-- Writing a file into a directory modelled as a name list: `rename`/`open`
overwrite an existing entry of the same name, so the name is added once. -/
def addUnique (l : List String) (x : String) : List String :=
  if x ∈ l then l else l ++ [x]

/-- The persistent record kept in `logs/prp-orchestrator-state.json`
(`State.data` in the source). -/
structure StateData where
  last_batch_time : Option Int
  processed_files : List String
  current_processing : Option String
  batch_count_1h : Nat
  batch_times : List Int
deriving DecidableEq, Repr

/-- The zero-valued default record built by `State._load` when no file exists. -/
def defaultStateData : StateData :=
  { last_batch_time := none
    processed_files := []
    current_processing := none
    batch_count_1h := 0
    batch_times := [] }

/-- The configuration fields consulted by the rate limiter. -/
structure Config where
  MAX_BATCHES_PER_HOUR : Nat
  MIN_BATCH_INTERVAL_MINUTES : Int
deriving DecidableEq, Repr

/-- `State._load`: if the state file exists its content is fed to `json.load`,
which raises on unparsable content; only a missing file yields the default. -/
def State_load (file : Option (Option StateData)) : Except String StateData :=
  match file with
  | none => Except.ok defaultStateData
  | some none => Except.error ("json.decoder.JSONDecodeError")
  | some (some d) => Except.ok d

/-- One primitive file operation on the state file performed by `State.save`. -/
inductive FileOp where
  | truncate
  | writeAll (s : StateData)
deriving DecidableEq, Repr

/-- `State.save`: `open(self.state_file, 'w')` truncates the file in place, then
`json.dump` writes the record.  There is no temporary file and no rename. -/
def save_ops (s : StateData) : List FileOp :=
  [FileOp.truncate, FileOp.writeAll s]

/-- Effect of one file operation on the modelled state file: a truncated (or
partially written) file exists but does not parse. -/
def applyOp (_file : Option (Option StateData)) (op : FileOp) : Option (Option StateData) :=
  match op with
  | FileOp.truncate => some none
  | FileOp.writeAll s => some (some s)

/-- Applying a prefix of `save_ops` models a crash part-way through `save`. -/
def applyOps (file : Option (Option StateData)) (ops : List FileOp) : Option (Option StateData) :=
  ops.foldl applyOp file

/-- The value of `can_submit_batch`: Python returns `(bool, reason)`; the two
deny branches are distinguished here by the reason string they format. -/
inductive RateDecision where
  | allow
  | denyHourly (countInHour : Nat) (waitMinutes : Nat)
  | denyInterval (waitMinutes : Nat)
deriving DecidableEq, Repr

/-- The reason string of the hourly-limit deny branch. -/
def hourlyDenyReason (n w : Nat) : String :=
  "Rate limit: " ++ toString n ++ " batches in last hour. Wait " ++ toString w ++ " minutes."

/-- The reason string of the minimum-interval deny branch. -/
def intervalDenyReason (w : Nat) : String :=
  "Minimum interval: Wait " ++ toString w ++ " minutes since last batch."

/-- Render a `RateDecision` to the reason string returned by the source. -/
def RateDecision.reason : RateDecision → String
  | RateDecision.allow => "OK"
  | RateDecision.denyHourly n w => hourlyDenyReason n w
  | RateDecision.denyInterval w => intervalDenyReason w

/-- `State.can_submit_batch`: prunes `batch_times` to entries strictly newer
than `now - 1h` (an in-memory mutation of `self.data`), then checks the hourly
cap and the minimum interval.  When the pruned list length already reaches
`MAX_BATCHES_PER_HOUR` the code reads `self.data["batch_times"][0]`, which
raises `IndexError` if the pruned list is empty (only possible when
`MAX_BATCHES_PER_HOUR = 0`). -/
def can_submit_batch (s : StateData) (cfg : Config) (now : Int) :
    StateData × Except String RateDecision :=
  let pruned := s.batch_times.filter (fun t => decide (t > now - 3600))
  let s' := { s with batch_times := pruned }
  if pruned.length ≥ cfg.MAX_BATCHES_PER_HOUR then
    match pruned.head? with
    | none => (s', Except.error ("list index out of range"))
    | some oldest =>
      let waitMinutes := (oldest + 3600 - now).toNat / 60
      (s', Except.ok (RateDecision.denyHourly pruned.length waitMinutes))
  else
    match s.last_batch_time with
    | some lastBatch =>
      let nextAllowed := lastBatch + cfg.MIN_BATCH_INTERVAL_MINUTES * 60
      if now < nextAllowed then
        (s', Except.ok (RateDecision.denyInterval ((nextAllowed - now).toNat / 60)))
      else
        (s', Except.ok RateDecision.allow)
    | none => (s', Except.ok RateDecision.allow)

/-- `State.record_batch_submission` (in-memory part; the trailing `save()` is
modelled by `save_ops` and, in the pipeline, by the `Env` I/O-failure knobs). -/
def record_batch_submission (s : StateData) (now : Int) : StateData :=
  let bt := s.batch_times ++ [now]
  { s with last_batch_time := some now, batch_times := bt, batch_count_1h := bt.length }

/-- `State.mark_processed`: defined in the source but never invoked by the
orchestrator (neither `process_definition` nor `run_once`/`run_daemon` call it). -/
def mark_processed (s : StateData) (filename : String) : StateData :=
  let pf := if filename ∈ s.processed_files then s.processed_files
            else s.processed_files ++ [filename]
  { s with processed_files := pf, current_processing := none }

/-- `State.set_current` (in-memory part). -/
def set_current (s : StateData) (filename : Option String) : StateData :=
  { s with current_processing := filename }

/-- One entry of `QUEUE_DIR.iterdir()`: name, `st_mtime`, and whether it is a
regular file (the queue directory also holds the `processed/` and `failed/`
subdirectories, which `is_file()` filters out). -/
structure DirEntry where
  name : String
  mtime : Int
  isFile : Bool
deriving DecidableEq, Repr

/-- The error-detail file written next to a failed definition:
`{stem}-error.txt` containing `Failed at: <timestamp>` and `Error: <message>`. -/
structure ErrorLog where
  name : String
  failedAt : Int
  message : String
deriving DecidableEq, Repr

/-- The directories touched by the orchestrator, each as a listing.  `queue`
keeps directory listing order (the order `iterdir()` yields). -/
structure FS where
  queue : List DirEntry
  active : List String
  drafts : List String
  failed : List String
  failedLogs : List ErrorLog
  batch : List String
deriving DecidableEq, Repr

/-- The sort key relation of `sorted(files, key=lambda f: f.stat().st_mtime)`. -/
def mtimeLe (a b : DirEntry) : Prop := a.mtime ≤ b.mtime

instance : DecidableRel mtimeLe := fun a b => inferInstanceAs (Decidable (a.mtime ≤ b.mtime))

instance : IsTotal DirEntry mtimeLe := ⟨fun a b => le_total a.mtime b.mtime⟩

instance : IsTrans DirEntry mtimeLe := ⟨fun _ _ _ h1 h2 => le_trans h1 h2⟩

/-- `PRPOrchestrator.get_queued_files`: keep the regular files with suffix
`.md` whose name is not in `processed_files`, then sort ascending by
modification time.  Python's `sorted` is a stable sort keyed only on `st_mtime`;
any stable sort computes the same list, and `List.insertionSort` with the
non-strict key relation is stable, so it is extensionally the same function. -/
def get_queued_files (queue : List DirEntry) (processed : List String) : List DirEntry :=
  let files := queue.filter
    (fun f => f.isFile && pathSuffix f.name == ".md" && !(processed.contains f.name))
  List.insertionSort mtimeLe files

/-- Outcomes of the opaque external collaborators for one `process_definition`
call, plus whether each `State.save` performed inside it raises an I/O error
(`entrySaveRaises` is the `set_current` save at entry — the only save outside
the `try` block; `recordDraftSaveRaises`/`recordGenSaveRaises` are the saves
inside the two `record_batch_submission` calls).  `draftResults`/`genResults`
are the listings of the results directories produced by `submit-batch.sh`. -/
structure Env where
  entrySaveRaises : Bool
  collectOk : Bool
  draftRequestOk : Bool
  submitDraftOk : Bool
  recordDraftSaveRaises : Bool
  draftResults : List String
  genContextOk : Bool
  genRequestOk : Bool
  submitGenOk : Bool
  recordGenSaveRaises : Bool
  genResults : List String
deriving DecidableEq, Repr

/-- The `datetime.now()` readings taken during one `process_definition` call. -/
structure Times where
  tGate1 : Int
  tSubmit1 : Int
  tGate2 : Int
  tSubmit2 : Int
  tFail : Int
deriving DecidableEq, Repr

/-- One invocation of an external collaborator script via `run_script`. -/
inductive ScriptCall where
  | collectContext (prpFile output : String)
  | createBatchRequest (context phase output : String)
  | submitBatch (request outputDir : String)
deriving DecidableEq, Repr

instance {ε α : Type} [DecidableEq ε] [DecidableEq α] : DecidableEq (Except ε α) := fun a b =>
  match a, b with
  | Except.error e, Except.error e' =>
    if h : e = e' then isTrue (by rw [h]) else isFalse (by simp [h])
  | Except.error _, Except.ok _ => isFalse (by simp)
  | Except.ok _, Except.error _ => isFalse (by simp)
  | Except.ok x, Except.ok y =>
    if h : x = y then isTrue (by rw [h]) else isFalse (by simp [h])

/-- Result of one `process_definition` call: the directories, the state record,
the trace of collaborator invocations, the `Logger` lines issued directly by
`process_definition` (level, message), and the normal/raising outcome. -/
structure PDResult where
  fs : FS
  state : StateData
  calls : List ScriptCall
  logs : List (String × String)
  outcome : Except String Unit
deriving DecidableEq, Repr

/-- The `except Exception` handler of `process_definition`: log the error, move
the definition file into `FAILED_DIR`, write the sibling `{stem}-error.txt`
(timestamp + message), `set_current(None)`, and re-raise. -/
def failBranch (fs : FS) (st : StateData) (f : DirEntry) (msg : String)
    (tFail : Int) (calls : List ScriptCall) (logs : List (String × String)) : PDResult :=
  { fs := { fs with
      queue := fs.queue.filter (fun e => !(e.name == f.name))
      failed := addUnique fs.failed f.name
      failedLogs := fs.failedLogs ++
        [{ name := pathStem f.name ++ "-error.txt", failedAt := tFail, message := msg }] }
    state := set_current st none
    calls := calls
    logs := logs ++ [("ERROR", "Failed to process " ++ f.name ++ ": " ++ msg)]
    outcome := Except.error msg }

/-- `PRPOrchestrator.process_definition`, lines 320-350 of the source ("Phase 5:
Submit generate batch" through the final relocation into `ACTIVE_DIR`), reached
when the second rate gate allows.  Split out of `process_definition` purely so
each region can be reasoned about separately; `process_definition` below
tail-calls it, so the composed function is the source function. -/
def pd_phase5 (env : Env) (t : Times) (fs : FS) (st : StateData)
    (f : DirEntry) (calls : List ScriptCall) (logs : List (String × String)) : PDResult :=
  -- Phase 5: Submit generate batch
  let logs := logs ++ [("INFO", "Phase 5: Submitting generate batch to API...")]
  let genRequest := "batch/" ++ pathStem f.name ++ "-gen-request.jsonl"
  let genResultsDir := "batch/" ++ pathStem f.name ++ "-gen-results"
  let calls := calls ++ [ScriptCall.submitBatch genRequest genResultsDir]
  if !env.submitGenOk then
    failBranch fs st f ("Script failed: submit-batch.sh") t.tFail calls logs
  else
  let st := record_batch_submission st t.tSubmit2
  if env.recordGenSaveRaises then
    failBranch fs st f ("IOError") t.tFail calls logs
  else
  -- Find generated PRP(s)
  let generated := env.genResults.filter (fun n => pathSuffix n == ".md")
  if generated.isEmpty then
    failBranch fs st f ("No PRPs generated from batch") t.tFail calls logs
  else
  -- Move PRPs to active directory
  let fs := { fs with active := generated.foldl addUnique fs.active }
  let logs := logs ++ generated.map (fun n => ("INFO", "PRP ready for implementation: " ++ n))
  let logs := logs ++
    [("INFO", "✓ PRPs generated from: " ++ f.name),
     ("INFO", "  Ready for execution: " ++ toString generated.length ++ " PRPs in prp/active/"),
     ("INFO", "  Note: Definition remains in queue until all PRPs complete")]
  { fs := fs, state := st, calls := calls, logs := logs, outcome := Except.ok () }

/-- `PRPOrchestrator.process_definition`, lines 267-318 of the source ("Phase 3:
Submit draft batch" through the second rate gate), reached when the first rate
gate allows; tail-calls `pd_phase5` on a second allow. -/
def pd_phase3 (cfg : Config) (env : Env) (t : Times) (fs : FS) (st : StateData)
    (f : DirEntry) (calls : List ScriptCall) (logs : List (String × String)) : PDResult :=
  -- Phase 3: Submit draft batch
  let logs := logs ++ [("INFO", "Phase 3: Submitting draft batch to API...")]
  let draftRequest := "batch/" ++ pathStem f.name ++ "-draft-request.jsonl"
  let draftResultsDir := "batch/" ++ pathStem f.name ++ "-draft-results"
  let calls := calls ++ [ScriptCall.submitBatch draftRequest draftResultsDir]
  if !env.submitDraftOk then
    failBranch fs st f ("Script failed: submit-batch.sh") t.tFail calls logs
  else
  let st := record_batch_submission st t.tSubmit1
  if env.recordDraftSaveRaises then
    failBranch fs st f ("IOError") t.tFail calls logs
  else
  -- Find generated draft PRP: first ".md" file whose name contains "prp-"
  match env.draftResults.find? (fun n => pathSuffix n == ".md" && containsSub n "prp-") with
  | none => failBranch fs st f ("No draft PRP generated from batch") t.tFail calls logs
  | some draftPrp =>
  -- Move draft to drafts directory
  let fs := { fs with drafts := addUnique fs.drafts draftPrp }
  let finalDraft := "prp/drafts/" ++ draftPrp
  let logs := logs ++ [("INFO", "Draft created: " ++ draftPrp)]
  -- Phase 4: Create generate request
  let logs := logs ++ [("INFO", "Phase 4: Creating generate batch request...")]
  let genContext := "batch/" ++ pathStem f.name ++ "-gen-context.json"
  let calls := calls ++ [ScriptCall.collectContext finalDraft genContext]
  if !env.genContextOk then
    failBranch fs st f ("Script failed: collect-prp-context.sh") t.tFail calls logs
  else
  let fs := { fs with batch := addUnique fs.batch genContext }
  let genRequest := "batch/" ++ pathStem f.name ++ "-gen-request.jsonl"
  let calls := calls ++ [ScriptCall.createBatchRequest genContext "generate" genRequest]
  if !env.genRequestOk then
    failBranch fs st f ("Script failed: create-batch-request.sh") t.tFail calls logs
  else
  let fs := { fs with batch := addUnique fs.batch genRequest }
  -- Check rate limit again (tuple unpack of (can_submit, reason))
  let gate2 := can_submit_batch st cfg t.tGate2
  let st := gate2.1
  match gate2.2 with
  | Except.error msg => failBranch fs st f msg t.tFail calls logs
  | Except.ok (RateDecision.denyHourly n w) =>
    let logs := logs ++
      [("WARN", "Rate limit check: " ++ hourlyDenyReason n w),
       ("INFO", "Draft created, will generate later: " ++ draftPrp)]
    { fs := fs, state := st, calls := calls, logs := logs, outcome := Except.ok () }
  | Except.ok (RateDecision.denyInterval w) =>
    let logs := logs ++
      [("WARN", "Rate limit check: " ++ intervalDenyReason w),
       ("INFO", "Draft created, will generate later: " ++ draftPrp)]
    { fs := fs, state := st, calls := calls, logs := logs, outcome := Except.ok () }
  | Except.ok RateDecision.allow =>
    pd_phase5 env t fs st f calls logs

/-- `PRPOrchestrator.process_definition` (lines 225-365), phase by phase.
`run_script` raising `RuntimeError("Script failed: <name>")` on a nonzero exit
is modelled by the `Env` success flags; the script invocation is recorded in
the trace whether or not it succeeds (the process did run).  A save raising
inside `record_batch_submission` happens after the in-memory mutation.  The
transient results directories of `submit-batch.sh` live inside `BATCH_DIR` and
are read straight from `Env`; only the files moved out of them (to
`DRAFTS_DIR` / `ACTIVE_DIR`) are tracked in `FS`.  The regions from "Phase 3"
and "Phase 5" onward are in the tail-called `pd_phase3` / `pd_phase5`. -/
def process_definition (cfg : Config) (env : Env) (t : Times)
    (fs : FS) (st0 : StateData) (f : DirEntry) : PDResult :=
  let logs := [("INFO", "Processing: " ++ f.name)]
  let st := set_current st0 (some f.name)
  if env.entrySaveRaises then
    { fs := fs, state := st, calls := [], logs := logs, outcome := Except.error ("IOError") }
  else
    -- Check if PRPs already exist in active/ (skip regeneration);
    -- `ACTIVE_DIR.glob("*.md")` matches every name ending in ".md".
    let existing := fs.active.filter (fun n => strEndsWith n (".md"))
    if !existing.isEmpty then
      let logs := logs ++
        [("INFO", "Found " ++ toString existing.length ++ " existing PRPs in prp/active/"),
         ("INFO", "Skipping generation phases (PRPs already exist)"),
         ("INFO", "✓ PRPs generated from: " ++ f.name),
         ("INFO", "  Ready for execution: " ++ toString existing.length ++ " PRPs in prp/active/")]
      { fs := fs, state := st, calls := [], logs := logs, outcome := Except.ok () }
    else
    -- Phase 1: Collect context
    let logs := logs ++ [("INFO", "Phase 1: Collecting context...")]
    let contextFile := "batch/" ++ pathStem f.name ++ "-context.json"
    let calls := [ScriptCall.collectContext ("prp/queue/" ++ f.name) contextFile]
    if !env.collectOk then
      failBranch fs st f ("Script failed: collect-prp-context.sh") t.tFail calls logs
    else
    let fs := { fs with batch := addUnique fs.batch contextFile }
    -- Phase 2: Create draft request
    let logs := logs ++ [("INFO", "Phase 2: Creating draft batch request...")]
    let draftRequest := "batch/" ++ pathStem f.name ++ "-draft-request.jsonl"
    let calls := calls ++ [ScriptCall.createBatchRequest contextFile "draft" draftRequest]
    if !env.draftRequestOk then
      failBranch fs st f ("Script failed: create-batch-request.sh") t.tFail calls logs
    else
    let fs := { fs with batch := addUnique fs.batch draftRequest }
    -- Check rate limit before submitting (tuple unpack of (can_submit, reason))
    let gate1 := can_submit_batch st cfg t.tGate1
    let st := gate1.1
    match gate1.2 with
    | Except.error msg => failBranch fs st f msg t.tFail calls logs
    | Except.ok (RateDecision.denyHourly n w) =>
      let logs := logs ++
        [("WARN", "Rate limit check: " ++ hourlyDenyReason n w),
         ("INFO", "Will retry " ++ f.name ++ " later")]
      { fs := fs, state := st, calls := calls, logs := logs, outcome := Except.ok () }
    | Except.ok (RateDecision.denyInterval w) =>
      let logs := logs ++
        [("WARN", "Rate limit check: " ++ intervalDenyReason w),
         ("INFO", "Will retry " ++ f.name ++ " later")]
      { fs := fs, state := st, calls := calls, logs := logs, outcome := Except.ok () }
    | Except.ok RateDecision.allow =>
      pd_phase3 cfg env t fs st f calls logs

/-- Result of `run_once`: directories, state, the per-item outcomes in
processing order, and the concatenated collaborator-call trace. -/
structure ROResult where
  fs : FS
  state : StateData
  outcomes : List (String × Except String Unit)
  calls : List ScriptCall
deriving DecidableEq, Repr

/-- One iteration of the `for def_file in queued` loop of `run_once`: the
`try`/`except Exception` around `process_definition` catches every exception
(state-save I/O errors included), logs `"Continuing with next file after
error"`, and `continue`s — so the step function is total and the fold always
proceeds to the next item. -/
def run_once_step (cfg : Config) (envOf : String → Env) (timesOf : String → Times)
    (acc : ROResult) (f : DirEntry) : ROResult :=
  let r := process_definition cfg (envOf f.name) (timesOf f.name) acc.fs acc.state f
  { fs := r.fs, state := r.state
    outcomes := acc.outcomes ++ [(f.name, r.outcome)]
    calls := acc.calls ++ r.calls }

/-- `PRPOrchestrator.run_once`: scan the queue once, then process each item of
that scan in order, isolating per-item exceptions (`run_once_step`). -/
def run_once (cfg : Config) (envOf : String → Env) (timesOf : String → Times)
    (fs : FS) (st : StateData) : ROResult :=
  let queued := get_queued_files fs.queue st.processed_files
  queued.foldl (run_once_step cfg envOf timesOf)
    { fs := fs, state := st, outcomes := [], calls := [] }

/-- The oldest (minimum) timestamp of a list, as the spec's §4.2 phrase
"oldest pruned time" reads. -/
def oldestTime : List Int → Option Int
  | [] => none
  | x :: xs => some (xs.foldl min x)

/-- The rate-limiter decision as the spec §4.2 words it, amended only in the
`max_per_hour = 0` corner: (1) prune `submission_times` to entries strictly
newer than `now - 1h`; (2) if the pruned count reaches `max_per_hour`, deny
with wait `(oldest pruned time + 1h) - now` in whole minutes — raising an
index error when the pruned list is empty; (3) else if `last_submission_time`
is set and `now < last + min_interval`, deny with the remaining interval in
whole minutes; (4) else allow (the lower bound `now = next_allowed` included). -/
def rateLimiterSpec (s : StateData) (cfg : Config) (now : Int) :
    StateData × Except String RateDecision :=
  let pruned := s.batch_times.filter (fun t => decide (t > now - 3600))
  let s' := { s with batch_times := pruned }
  if pruned.length ≥ cfg.MAX_BATCHES_PER_HOUR then
    match oldestTime pruned with
    | none => (s', Except.error ("list index out of range"))
    | some oldest =>
      (s', Except.ok (RateDecision.denyHourly pruned.length ((oldest + 3600 - now).toNat / 60)))
  else
    match s.last_batch_time with
    | some lastBatch =>
      if now < lastBatch + cfg.MIN_BATCH_INTERVAL_MINUTES * 60 then
        (s', Except.ok (RateDecision.denyInterval
          ((lastBatch + cfg.MIN_BATCH_INTERVAL_MINUTES * 60 - now).toNat / 60)))
      else
        (s', Except.ok RateDecision.allow)
    | none => (s', Except.ok RateDecision.allow)

/-! ### Helper lemmas -/

theorem foldl_min_eq_self {x : Int} {xs : List Int} (h : ∀ y ∈ xs, x ≤ y) :
    xs.foldl min x = x := by
  induction xs with
  | nil => rfl
  | cons y ys ih =>
    have hxy : min x y = x := min_eq_left (h y (List.mem_cons_self y ys))
    simpa [List.foldl_cons, hxy] using ih (fun z hz => h z (List.mem_cons_of_mem y hz))

theorem oldestTime_eq_head_of_sorted {l : List Int} (h : List.Sorted (· ≤ ·) l) :
    oldestTime l = l.head? := by
  cases l with
  | nil => rfl
  | cons x xs =>
    have hx : ∀ y ∈ xs, x ≤ y := (List.pairwise_cons.mp h).1
    simp [oldestTime, foldl_min_eq_self hx]

theorem can_submit_fst_processed (s : StateData) (cfg : Config) (now : Int) :
    (can_submit_batch s cfg now).1.processed_files = s.processed_files := by
  unfold can_submit_batch
  dsimp only
  repeat' split
  all_goals rfl

theorem can_submit_fst_queue_free (s : StateData) (cfg : Config) (now : Int) :
    (can_submit_batch s cfg now).1.current_processing = s.current_processing := by
  unfold can_submit_batch
  dsimp only
  repeat' split
  all_goals rfl

theorem record_processed (s : StateData) (now : Int) :
    (record_batch_submission s now).processed_files = s.processed_files := rfl

theorem set_current_processed (s : StateData) (o : Option String) :
    (set_current s o).processed_files = s.processed_files := rfl

theorem mem_addUnique_self (l : List String) (x : String) : x ∈ addUnique l x := by
  unfold addUnique
  split
  · assumption
  · exact List.mem_append_right l (List.mem_singleton.mpr rfl)

theorem pd5_processed_eq (env : Env) (t : Times) (fs : FS) (st : StateData)
    (f : DirEntry) (calls : List ScriptCall) (logs : List (String × String)) :
    (pd_phase5 env t fs st f calls logs).state.processed_files = st.processed_files := by
  unfold pd_phase5
  dsimp only
  repeat' split
  all_goals
    simp [failBranch, set_current, record_batch_submission]

theorem pd3_processed_eq (cfg : Config) (env : Env) (t : Times) (fs : FS) (st : StateData)
    (f : DirEntry) (calls : List ScriptCall) (logs : List (String × String)) :
    (pd_phase3 cfg env t fs st f calls logs).state.processed_files = st.processed_files := by
  unfold pd_phase3
  dsimp only
  repeat' split
  all_goals
    simp [failBranch, set_current, record_batch_submission, can_submit_fst_processed,
      pd5_processed_eq]

theorem pd_processed_eq (cfg : Config) (env : Env) (t : Times)
    (fs : FS) (st : StateData) (f : DirEntry) :
    (process_definition cfg env t fs st f).state.processed_files = st.processed_files := by
  unfold process_definition
  dsimp only
  repeat' split
  all_goals
    simp [failBranch, set_current, record_batch_submission, can_submit_fst_processed,
      pd3_processed_eq]

/-- The externally observable effects the `except` handler of
`process_definition` produces for an error with message `msg`: the error is
logged, the definition file is gone from the queue directory and sits in the
failed directory next to a `{stem}-error.txt` holding the failure timestamp
and the message, and `current_processing` has been reset to `None`. -/
def failedEffects (f : DirEntry) (tFail : Int) (msg : String) (r : PDResult) : Prop :=
  (("ERROR", "Failed to process " ++ f.name ++ ": " ++ msg) ∈ r.logs) ∧
  (∀ e ∈ r.fs.queue, e.name ≠ f.name) ∧
  f.name ∈ r.fs.failed ∧
  ({ name := pathStem f.name ++ "-error.txt", failedAt := tFail, message := msg } : ErrorLog)
    ∈ r.fs.failedLogs ∧
  r.state.current_processing = none

theorem failBranch_failedEffects (fs : FS) (st : StateData) (f : DirEntry) (msg : String)
    (tFail : Int) (calls : List ScriptCall) (logs : List (String × String)) :
    failedEffects f tFail msg (failBranch fs st f msg tFail calls logs) := by
  unfold failedEffects failBranch set_current
  refine ⟨?_, ?_, ?_, ?_, rfl⟩
  · simp
  · intro e he
    have := (List.mem_filter.mp he).2
    simpa using this
  · exact mem_addUnique_self _ _
  · simp

theorem pd5_error_or_ok (env : Env) (t : Times) (fs : FS) (st : StateData)
    (f : DirEntry) (calls : List ScriptCall) (logs : List (String × String)) :
    (pd_phase5 env t fs st f calls logs).outcome = Except.ok () ∨
    ∃ msg, (pd_phase5 env t fs st f calls logs).outcome = Except.error msg ∧
      failedEffects f t.tFail msg (pd_phase5 env t fs st f calls logs) := by
  unfold pd_phase5
  dsimp only
  repeat' split
  all_goals first
    | exact Or.inl rfl
    | exact Or.inr ⟨_, rfl, failBranch_failedEffects ..⟩

theorem pd3_error_or_ok (cfg : Config) (env : Env) (t : Times) (fs : FS) (st : StateData)
    (f : DirEntry) (calls : List ScriptCall) (logs : List (String × String)) :
    (pd_phase3 cfg env t fs st f calls logs).outcome = Except.ok () ∨
    ∃ msg, (pd_phase3 cfg env t fs st f calls logs).outcome = Except.error msg ∧
      failedEffects f t.tFail msg (pd_phase3 cfg env t fs st f calls logs) := by
  unfold pd_phase3
  dsimp only
  repeat' split
  all_goals first
    | exact Or.inl rfl
    | exact Or.inr ⟨_, rfl, failBranch_failedEffects ..⟩
    | exact pd5_error_or_ok ..

theorem pd_error_or_ok (cfg : Config) (env : Env) (t : Times)
    (fs : FS) (st : StateData) (f : DirEntry)
    (hentry : env.entrySaveRaises = false) :
    (process_definition cfg env t fs st f).outcome = Except.ok () ∨
    ∃ msg, (process_definition cfg env t fs st f).outcome = Except.error msg ∧
      failedEffects f t.tFail msg (process_definition cfg env t fs st f) := by
  unfold process_definition
  dsimp only
  repeat' split
  all_goals first
    | exact Or.inl rfl
    | exact Or.inr ⟨_, rfl, failBranch_failedEffects ..⟩
    | exact pd3_error_or_ok ..
    | (exfalso; simp_all)

theorem pd5_queue_or_error (env : Env) (t : Times) (fs : FS) (st : StateData)
    (f : DirEntry) (calls : List ScriptCall) (logs : List (String × String)) :
    (pd_phase5 env t fs st f calls logs).fs.queue = fs.queue ∨
    ∃ msg, (pd_phase5 env t fs st f calls logs).outcome = Except.error msg := by
  unfold pd_phase5
  dsimp only
  repeat' split
  all_goals first
    | exact Or.inl rfl
    | exact Or.inr ⟨_, rfl⟩

theorem pd3_queue_or_error (cfg : Config) (env : Env) (t : Times) (fs : FS) (st : StateData)
    (f : DirEntry) (calls : List ScriptCall) (logs : List (String × String)) :
    (pd_phase3 cfg env t fs st f calls logs).fs.queue = fs.queue ∨
    ∃ msg, (pd_phase3 cfg env t fs st f calls logs).outcome = Except.error msg := by
  unfold pd_phase3
  dsimp only
  repeat' split
  all_goals first
    | exact Or.inl rfl
    | exact Or.inr ⟨_, rfl⟩
    | exact pd5_queue_or_error ..

theorem pd_queue_or_error (cfg : Config) (env : Env) (t : Times)
    (fs : FS) (st : StateData) (f : DirEntry) :
    (process_definition cfg env t fs st f).fs.queue = fs.queue ∨
    ∃ msg, (process_definition cfg env t fs st f).outcome = Except.error msg := by
  unfold process_definition
  dsimp only
  repeat' split
  all_goals first
    | exact Or.inl rfl
    | exact Or.inr ⟨_, rfl⟩
    | exact pd3_queue_or_error ..

theorem pd_ok_queue (cfg : Config) (env : Env) (t : Times)
    (fs : FS) (st : StateData) (f : DirEntry)
    (h : (process_definition cfg env t fs st f).outcome = Except.ok ()) :
    (process_definition cfg env t fs st f).fs.queue = fs.queue := by
  rcases pd_queue_or_error cfg env t fs st f with hq | ⟨msg, he⟩
  · exact hq
  · rw [h] at he
    cases he

theorem pd5_calls_extends (env : Env) (t : Times) (fs : FS) (st : StateData)
    (f : DirEntry) (calls : List ScriptCall) (logs : List (String × String)) :
    ∃ rest, (pd_phase5 env t fs st f calls logs).calls = calls ++ rest := by
  unfold pd_phase5
  dsimp only
  repeat' split
  all_goals exact ⟨_, rfl⟩

theorem append_extends_two {α : Type} {a b c : List α} : ∃ r, (a ++ b) ++ c = a ++ r :=
  ⟨b ++ c, List.append_assoc a b c⟩

theorem append_extends_three {α : Type} {a b c d : List α} :
    ∃ r, ((a ++ b) ++ c) ++ d = a ++ r :=
  ⟨b ++ (c ++ d), by simp only [List.append_assoc]⟩

theorem append_assoc_four {α : Type} {a b c d e : List α} :
    (((a ++ b) ++ c) ++ d) ++ e = a ++ (b ++ (c ++ (d ++ e))) := by
  simp only [List.append_assoc]

theorem pd3_calls_extends (cfg : Config) (env : Env) (t : Times) (fs : FS) (st : StateData)
    (f : DirEntry) (calls : List ScriptCall) (logs : List (String × String)) :
    ∃ rest, (pd_phase3 cfg env t fs st f calls logs).calls = calls ++ rest := by
  unfold pd_phase3
  dsimp only
  repeat' split
  all_goals first
    | exact ⟨_, rfl⟩
    | exact append_extends_two
    | exact append_extends_three
    | (rcases pd5_calls_extends .. with ⟨r, hr⟩
       exact ⟨_, hr.trans append_assoc_four⟩)

theorem foldl_step_processed (cfg : Config) (envOf : String → Env) (timesOf : String → Times)
    (l : List DirEntry) (acc : ROResult) :
    (l.foldl (run_once_step cfg envOf timesOf) acc).state.processed_files
      = acc.state.processed_files := by
  induction l generalizing acc with
  | nil => rfl
  | cons f l ih =>
    rw [List.foldl_cons, ih]
    exact pd_processed_eq ..

theorem foldl_outcomes_names (cfg : Config) (envOf : String → Env) (timesOf : String → Times)
    (l : List DirEntry) (acc : ROResult) :
    (l.foldl (run_once_step cfg envOf timesOf) acc).outcomes.map Prod.fst
      = acc.outcomes.map Prod.fst ++ l.map DirEntry.name := by
  induction l generalizing acc with
  | nil => simp
  | cons f l ih =>
    rw [List.foldl_cons, ih]
    simp [run_once_step]

theorem foldl_outcomes_extends (cfg : Config) (envOf : String → Env) (timesOf : String → Times)
    (l : List DirEntry) (acc : ROResult) :
    ∃ rest, (l.foldl (run_once_step cfg envOf timesOf) acc).outcomes
      = acc.outcomes ++ rest := by
  induction l generalizing acc with
  | nil => exact ⟨[], by simp⟩
  | cons f l ih =>
    rcases ih (run_once_step cfg envOf timesOf acc f) with ⟨r, hr⟩
    rw [List.foldl_cons]
    exact ⟨_, hr.trans (List.append_assoc _ _ _)⟩

theorem foldl_queue_of_ok (cfg : Config) (envOf : String → Env) (timesOf : String → Times)
    (l : List DirEntry) (acc : ROResult)
    (h : ∀ o ∈ (l.foldl (run_once_step cfg envOf timesOf) acc).outcomes,
      o.2 = Except.ok ()) :
    (l.foldl (run_once_step cfg envOf timesOf) acc).fs.queue = acc.fs.queue := by
  induction l generalizing acc with
  | nil => rfl
  | cons f l ih =>
    rw [List.foldl_cons] at h ⊢
    have hstep : (run_once_step cfg envOf timesOf acc f).fs.queue = acc.fs.queue := by
      rcases foldl_outcomes_extends cfg envOf timesOf l
        (run_once_step cfg envOf timesOf acc f) with ⟨r, hr⟩
      have hmem : (f.name,
          (process_definition cfg (envOf f.name) (timesOf f.name) acc.fs acc.state f).outcome)
          ∈ (l.foldl (run_once_step cfg envOf timesOf)
              (run_once_step cfg envOf timesOf acc f)).outcomes := by
        rw [hr]
        exact List.mem_append_left _
          (List.mem_append_right _ (List.mem_singleton.mpr rfl))
      exact pd_ok_queue _ _ _ _ _ _ (h _ hmem)
    rw [ih _ h, hstep]

theorem run_once_processed_eq (cfg : Config) (envOf : String → Env)
    (timesOf : String → Times) (fs : FS) (st : StateData) :
    (run_once cfg envOf timesOf fs st).state.processed_files = st.processed_files :=
  foldl_step_processed ..

theorem run_once_outcome_names (cfg : Config) (envOf : String → Env)
    (timesOf : String → Times) (fs : FS) (st : StateData) :
    (run_once cfg envOf timesOf fs st).outcomes.map Prod.fst
      = (get_queued_files fs.queue st.processed_files).map DirEntry.name := by
  have h := foldl_outcomes_names cfg envOf timesOf
    (get_queued_files fs.queue st.processed_files)
    { fs := fs, state := st, outcomes := [], calls := [] }
  simpa [run_once] using h

theorem run_once_queue_of_ok (cfg : Config) (envOf : String → Env)
    (timesOf : String → Times) (fs : FS) (st : StateData)
    (h : ∀ o ∈ (run_once cfg envOf timesOf fs st).outcomes, o.2 = Except.ok ()) :
    (run_once cfg envOf timesOf fs st).fs.queue = fs.queue :=
  foldl_queue_of_ok _ _ _ _ _ h

/-! ### Claims -/

/-- C5, counterexample: a state file that exists but fails to parse makes
`State._load` raise (propagate the JSON decode error) instead of returning the
zero-valued default, contradicting the claim that a corrupt state file never
makes `load()` raise. -/
theorem C5_counterexample :
    State_load (some none) = Except.error ("json.decoder.JSONDecodeError") ∧
    State_load (some none) ≠ Except.ok defaultStateData := by
  exact ⟨rfl, by decide⟩

/-- C5, amended: `load()` returns the last-persisted state when the file
parses and the zero-valued default when the file does not exist, but raises
(propagates the JSON parse error) when the file exists and fails to parse. -/
theorem C5_amended :
    State_load none = Except.ok defaultStateData ∧
    (∀ d : StateData, State_load (some (some d)) = Except.ok d) ∧
    State_load (some none) = Except.error ("json.decoder.JSONDecodeError") :=
  ⟨rfl, fun _ => rfl, rfl⟩

/-- C6, counterexample: `save` opens the state file with mode `w` (truncating
in place) and then writes; there is no temp-file-and-rename.  A crash after the
truncation but before the write completes (`take 1` of the operation list)
leaves an existing-but-unparsable file — which the next `load()` then fails
on — contradicting the claim that a crash at any point never leaves a
half-written state file. -/
theorem C6_counterexample :
    applyOps (some (some defaultStateData))
        ((save_ops (record_batch_submission defaultStateData 5)).take 1) = some none ∧
    State_load (applyOps (some (some defaultStateData))
        ((save_ops (record_batch_submission defaultStateData 5)).take 1))
      = Except.error ("json.decoder.JSONDecodeError") :=
  ⟨rfl, rfl⟩

/-- C6, amended: `save` writes the full record by truncating the state file in
place and rewriting it (no temp file or rename, hence not atomic).  Once `save`
returns the file holds the complete record — so a crash immediately after
`record_submission` returns reloads to a state reflecting that submission — but
a crash between the truncation and the completed write leaves an unparsable
file. -/
theorem C6_amended (file : Option (Option StateData)) (s : StateData) (now : Int) :
    applyOps file (save_ops s) = some (some s) ∧
    State_load (applyOps file (save_ops s)) = Except.ok s ∧
    State_load (applyOps file (save_ops (record_batch_submission s now)))
      = Except.ok (record_batch_submission s now) ∧
    (record_batch_submission s now).last_batch_time = some now ∧
    applyOps file ((save_ops s).take 1) = some none :=
  ⟨rfl, rfl, rfl, rfl, rfl⟩

/-- C3, counterexample: with `max_per_hour = 0` and an empty submission
history, the hourly-cap branch is taken (`0 ≥ 0`) and the code then reads
`batch_times[0]` from the empty pruned list, raising `IndexError` — so the
claim that `max_per_hour = 0` always *denies* fails: the call raises instead
of returning a deny decision. -/
theorem C3_counterexample :
    (can_submit_batch defaultStateData
        { MAX_BATCHES_PER_HOUR := 0, MIN_BATCH_INTERVAL_MINUTES := 60 } 0).2
      = Except.error ("list index out of range") := rfl

/-- C3, amended: the decision function prunes `submission_times` to entries
strictly newer than `now - 1h`, denies with wait `(oldest pruned + 1h) - now`
in whole minutes when the pruned count reaches `max_per_hour` — raising an
`IndexError` when that branch is taken with an empty pruned list (the only
possibility being `max_per_hour = 0`) — else denies with the remaining
interval when `now < last_submission_time + min_interval`, else allows
(boundary inclusive).  Stated as: on any state whose `submission_times` is
sorted ascending (its documented invariant, so that the first element is the
oldest), the code equals the spec-worded algorithm `rateLimiterSpec`. -/
theorem C3_amended (s : StateData) (cfg : Config) (now : Int)
    (hs : List.Sorted (· ≤ ·) s.batch_times) :
    can_submit_batch s cfg now = rateLimiterSpec s cfg now := by
  unfold can_submit_batch rateLimiterSpec
  dsimp only
  have hsp : List.Sorted (· ≤ ·)
      (s.batch_times.filter (fun t => decide (t > now - 3600))) :=
    List.Pairwise.filter _ hs
  rw [oldestTime_eq_head_of_sorted hsp]

/-- C3, witness for the amended theorem at a concrete sorted state. -/
theorem C3_amended_witness :
    can_submit_batch
        { last_batch_time := some 100, processed_files := [],
          current_processing := none, batch_count_1h := 2, batch_times := [50, 100] }
        { MAX_BATCHES_PER_HOUR := 2, MIN_BATCH_INTERVAL_MINUTES := 60 } 200
      = rateLimiterSpec
        { last_batch_time := some 100, processed_files := [],
          current_processing := none, batch_count_1h := 2, batch_times := [50, 100] }
        { MAX_BATCHES_PER_HOUR := 2, MIN_BATCH_INTERVAL_MINUTES := 60 } 200 :=
  C3_amended _ _ _ (by decide)

/-- C9, counterexample: the scan sorts by modification time only — `sorted`
with key `st_mtime` is stable, so two files with equal mtime keep directory
listing order rather than being ordered by name, and permuting the listing
permutes the result: the claim's name tie-break and listing-order independence
both fail. -/
theorem C9_counterexample :
    get_queued_files
        [{ name := "b.md", mtime := 5, isFile := true },
         { name := "a.md", mtime := 5, isFile := true }] []
      = [{ name := "b.md", mtime := 5, isFile := true },
         { name := "a.md", mtime := 5, isFile := true }] ∧
    get_queued_files
        [{ name := "b.md", mtime := 5, isFile := true },
         { name := "a.md", mtime := 5, isFile := true }] []
      ≠ get_queued_files
        [{ name := "a.md", mtime := 5, isFile := true },
         { name := "b.md", mtime := 5, isFile := true }] [] := by
  exact ⟨by decide, by decide⟩

/-- C9, amended: the scan returns exactly the regular files with suffix `.md`
whose name is not in the completed set (subdirectories excluded), ordered
ascending by modification time; ties keep directory listing order (stable
sort), so with tied modification times the result depends on listing order. -/
theorem C9_amended (queue : List DirEntry) (processed : List String) :
    (∀ e, e ∈ get_queued_files queue processed ↔
      (e ∈ queue ∧ e.isFile = true ∧ pathSuffix e.name = ".md" ∧
        processed.contains e.name = false)) ∧
    List.Sorted mtimeLe (get_queued_files queue processed) := by
  constructor
  · intro e
    unfold get_queued_files
    rw [(List.perm_insertionSort mtimeLe _).mem_iff]
    simp [List.mem_filter, Bool.and_eq_true, beq_iff_eq, Bool.not_eq_true', and_assoc]
  · exact List.sorted_insertionSort mtimeLe _

/-- Fixture for C1: every collaborator call succeeds and both rate gates
allow, so the run reaches the final relocation into the active directory. -/
def c1Env : Env :=
  { entrySaveRaises := false, collectOk := true, draftRequestOk := true,
    submitDraftOk := true, recordDraftSaveRaises := false,
    draftResults := ["prp-feature-draft.md"],
    genContextOk := true, genRequestOk := true, submitGenOk := true,
    recordGenSaveRaises := false, genResults := ["prp-feature-001.md"] }

/-- Fixture for C1: clock readings during the run. -/
def c1Times : Times :=
  { tGate1 := 10000, tSubmit1 := 10100, tGate2 := 10200, tSubmit2 := 10300, tFail := 0 }

/-- Fixture for C1: the queued definition file. -/
def c1Entry : DirEntry := { name := "feature.md", mtime := 100, isFile := true }

/-- Fixture for C1: fresh directories with one queued definition. -/
def c1FS : FS :=
  { queue := [c1Entry], active := [], drafts := [], failed := [], failedLogs := [], batch := [] }

/-- Fixture for C1: rate limits generous enough for both submissions. -/
def c1Cfg : Config := { MAX_BATCHES_PER_HOUR := 10, MIN_BATCH_INTERVAL_MINUTES := 0 }

/-- C1, counterexample: a pipeline run that succeeds all the way through the
final relocation (the generated PRP lands in the active directory and the run
returns normally) still leaves `processed_files` empty — `mark_processed` is
never called on the success path (the code deliberately leaves the definition
in the queue), contradicting the claim that success through the final
relocation calls `mark_completed(item.name)`. -/
theorem C1_counterexample :
    (process_definition c1Cfg c1Env c1Times c1FS defaultStateData c1Entry).outcome
      = Except.ok () ∧
    (process_definition c1Cfg c1Env c1Times c1FS defaultStateData c1Entry).fs.active
      = ["prp-feature-001.md"] ∧
    (process_definition c1Cfg c1Env c1Times c1FS defaultStateData c1Entry).state.processed_files
      = [] :=
  ⟨rfl, rfl, rfl⟩

/-- C1, amended: the pipeline never calls `mark_completed`: on every path —
full success through the final relocation included — `processed_files` is
left unchanged by `process_definition`, and hence by `run_once`; no operation
of the orchestrator ever adds a name to the completed set (`mark_processed`
exists on `State` but is never invoked). -/
theorem C1_amended (cfg : Config) (env : Env) (t : Times) (fs : FS) (st : StateData)
    (f : DirEntry) (envOf : String → Env) (timesOf : String → Times) :
    (process_definition cfg env t fs st f).state.processed_files = st.processed_files ∧
    (run_once cfg envOf timesOf fs st).state.processed_files = st.processed_files :=
  ⟨pd_processed_eq .., run_once_processed_eq ..⟩

/-- Fixture for C2: same all-success environment as C1 but its own copy. -/
def c2Env : Env :=
  { entrySaveRaises := false, collectOk := true, draftRequestOk := true,
    submitDraftOk := true, recordDraftSaveRaises := false,
    draftResults := ["prp-item-draft.md"],
    genContextOk := true, genRequestOk := true, submitGenOk := true,
    recordGenSaveRaises := false, genResults := ["prp-item-001.md"] }

/-- Fixture for C2: clock readings. -/
def c2Times : Times :=
  { tGate1 := 10000, tSubmit1 := 10100, tGate2 := 10200, tSubmit2 := 10300, tFail := 0 }

/-- Fixture for C2: the queued definition file. -/
def c2Entry : DirEntry := { name := "item.md", mtime := 100, isFile := true }

/-- Fixture for C2: fresh directories with one queued definition. -/
def c2FS : FS :=
  { queue := [c2Entry], active := [], drafts := [], failed := [], failedLogs := [], batch := [] }

/-- Fixture for C2: rate limits generous enough for both submissions. -/
def c2Cfg : Config := { MAX_BATCHES_PER_HOUR := 10, MIN_BATCH_INTERVAL_MINUTES := 0 }

/-- C2, counterexample: after a first `run_once` that fully completes its one
item (outcome ok), a second scan with no intervening queue or state changes
still returns that item — completed items are not excluded (nothing was added
to `processed_files`, and success leaves the definition file in the queue
directory) — and the second `run_once` therefore processes one item, not zero,
contradicting the idempotent-resume claim. -/
theorem C2_counterexample :
    (run_once c2Cfg (fun _ => c2Env) (fun _ => c2Times) c2FS defaultStateData).outcomes
      = [("item.md", Except.ok ())] ∧
    get_queued_files
        (run_once c2Cfg (fun _ => c2Env) (fun _ => c2Times) c2FS defaultStateData).fs.queue
        (run_once c2Cfg (fun _ => c2Env) (fun _ => c2Times) c2FS
          defaultStateData).state.processed_files
      = [c2Entry] ∧
    (run_once c2Cfg (fun _ => c2Env) (fun _ => c2Times)
        (run_once c2Cfg (fun _ => c2Env) (fun _ => c2Times) c2FS defaultStateData).fs
        (run_once c2Cfg (fun _ => c2Env) (fun _ => c2Times) c2FS
          defaultStateData).state).outcomes.length = 1 := by
  exact ⟨by decide, by decide, by decide⟩

/-- C2, amended: a second `run_once` after a fully successful first run
re-scans exactly the same items: `run_once` never changes `processed_files`,
and when every outcome of the first run is a normal return the queue directory
is unchanged as well, so the second scan equals the first (each re-offered item
then short-circuits on the artifacts now present in the active directory);
only failed items — moved out of the queue directory — are excluded. -/
theorem C2_amended (cfg : Config) (envOf : String → Env) (timesOf : String → Times)
    (fs : FS) (st : StateData)
    (h : ∀ o ∈ (run_once cfg envOf timesOf fs st).outcomes, o.2 = Except.ok ()) :
    (run_once cfg envOf timesOf fs st).state.processed_files = st.processed_files ∧
    (run_once cfg envOf timesOf fs st).fs.queue = fs.queue ∧
    get_queued_files (run_once cfg envOf timesOf fs st).fs.queue
        (run_once cfg envOf timesOf fs st).state.processed_files
      = get_queued_files fs.queue st.processed_files := by
  refine ⟨run_once_processed_eq .., run_once_queue_of_ok _ _ _ _ _ h, ?_⟩
  rw [run_once_processed_eq, run_once_queue_of_ok _ _ _ _ _ h]

/-- C2, witness for the amended theorem: the all-success single-item run. -/
theorem C2_amended_witness :
    get_queued_files
        (run_once c2Cfg (fun _ => c2Env) (fun _ => c2Times) c2FS defaultStateData).fs.queue
        (run_once c2Cfg (fun _ => c2Env) (fun _ => c2Times) c2FS
          defaultStateData).state.processed_files
      = get_queued_files c2FS.queue defaultStateData.processed_files :=
  (C2_amended c2Cfg (fun _ => c2Env) (fun _ => c2Times) c2FS defaultStateData
    (by decide)).2.2

/-- Fixture for C10: an active directory already holding a `.md` artifact
(whether or not it derives from the item being processed). -/
def c10FS : FS :=
  { queue := [{ name := "other.md", mtime := 7, isFile := true }],
    active := ["prp-unrelated-001.md"], drafts := [], failed := [], failedLogs := [],
    batch := [] }

/-- Fixture for C10: collaborator outcomes (immaterial — nothing is called). -/
def c10Env : Env :=
  { entrySaveRaises := false, collectOk := true, draftRequestOk := true,
    submitDraftOk := true, recordDraftSaveRaises := false, draftResults := [],
    genContextOk := true, genRequestOk := true, submitGenOk := true,
    recordGenSaveRaises := false, genResults := [] }

/-- Fixture for C10: clock readings (immaterial). -/
def c10Times : Times :=
  { tGate1 := 0, tSubmit1 := 0, tGate2 := 0, tSubmit2 := 0, tFail := 0 }

/-- Fixture for C10: the processed definition file. -/
def c10Entry : DirEntry := { name := "other.md", mtime := 7, isFile := true }

/-- C10: if the active directory holds at least one `.md` file when the
pipeline starts — regardless of its origin — the pipeline returns normally
without invoking any collaborator, without touching any directory, and without
recording a submission or completing the item; the only state change is that
`current_processing` is set to the item's name and is still set on return. -/
theorem C10_theorem (cfg : Config) (env : Env) (t : Times) (fs : FS) (st : StateData)
    (f : DirEntry)
    (hentry : env.entrySaveRaises = false)
    (hact : (fs.active.filter (fun n => strEndsWith n (".md"))).isEmpty = false) :
    (process_definition cfg env t fs st f).calls = [] ∧
    (process_definition cfg env t fs st f).fs = fs ∧
    (process_definition cfg env t fs st f).outcome = Except.ok () ∧
    (process_definition cfg env t fs st f).state = set_current st (some f.name) ∧
    (process_definition cfg env t fs st f).state.current_processing = some f.name := by
  unfold process_definition
  dsimp only
  simp only [hentry, hact]
  exact ⟨rfl, rfl, rfl, rfl, rfl⟩

/-- C10, witness at a concrete unrelated active artifact. -/
theorem C10_witness :
    (process_definition c2Cfg c10Env c10Times c10FS defaultStateData c10Entry).calls = [] ∧
    (process_definition c2Cfg c10Env c10Times c10FS defaultStateData c10Entry).fs = c10FS ∧
    (process_definition c2Cfg c10Env c10Times c10FS defaultStateData c10Entry).outcome
      = Except.ok () ∧
    (process_definition c2Cfg c10Env c10Times c10FS defaultStateData c10Entry).state
      = set_current defaultStateData (some ("other.md")) ∧
    (process_definition c2Cfg c10Env c10Times c10FS defaultStateData
      c10Entry).state.current_processing = some ("other.md") :=
  C10_theorem c2Cfg c10Env c10Times c10FS defaultStateData c10Entry rfl rfl

/-- C7: for every item and every unhandled error raised during a pipeline
phase (a rate-gate denial is a normal return, not an error; the `set_current`
save at entry is the one save outside the `try`), the pipeline logs the error,
moves the definition file into the failed directory, writes the sibling
error-detail file (failure timestamp + message), resets `current_processing`
to none, re-raises the error to the caller (the `.outcome` is exactly that
error), and does not add the item's name to the completed set. -/
theorem C7_theorem (cfg : Config) (env : Env) (t : Times) (fs : FS) (st : StateData)
    (f : DirEntry) (msg : String)
    (hentry : env.entrySaveRaises = false)
    (h : (process_definition cfg env t fs st f).outcome = Except.error msg) :
    failedEffects f t.tFail msg (process_definition cfg env t fs st f) ∧
    (process_definition cfg env t fs st f).state.processed_files
      = st.processed_files := by
  rcases pd_error_or_ok cfg env t fs st f hentry with hok | ⟨m, he, hfe⟩
  · rw [h] at hok
    cases hok
  · have hm := he.symm.trans h
    injection hm with hm'
    subst hm'
    exact ⟨hfe, pd_processed_eq ..⟩

/-- Fixture for C7: the context collector fails. -/
def c7Env : Env :=
  { entrySaveRaises := false, collectOk := false, draftRequestOk := true,
    submitDraftOk := true, recordDraftSaveRaises := false, draftResults := [],
    genContextOk := true, genRequestOk := true, submitGenOk := true,
    recordGenSaveRaises := false, genResults := [] }

/-- Fixture for C7: clock readings (failure timestamp 42). -/
def c7Times : Times :=
  { tGate1 := 10000, tSubmit1 := 10100, tGate2 := 10200, tSubmit2 := 10300, tFail := 42 }

/-- Fixture for C7: the queued definition file. -/
def c7Entry : DirEntry := { name := "bad.md", mtime := 3, isFile := true }

/-- Fixture for C7: fresh directories with one queued definition. -/
def c7FS : FS :=
  { queue := [c7Entry], active := [], drafts := [], failed := [], failedLogs := [], batch := [] }

/-- Fixture for C7: generous rate limits. -/
def c7Cfg : Config := { MAX_BATCHES_PER_HOUR := 10, MIN_BATCH_INTERVAL_MINUTES := 0 }

/-- C7, witness: a run whose collector raises shows all the listed effects. -/
theorem C7_witness :
    failedEffects c7Entry 42 ("Script failed: collect-prp-context.sh")
      (process_definition c7Cfg c7Env c7Times c7FS defaultStateData c7Entry) ∧
    (process_definition c7Cfg c7Env c7Times c7FS defaultStateData
      c7Entry).state.processed_files = defaultStateData.processed_files :=
  C7_theorem c7Cfg c7Env c7Times c7FS defaultStateData c7Entry
    ("Script failed: collect-prp-context.sh") rfl rfl

/-- Fixture for C4: every collaborator call succeeds when reached. -/
def c4Env : Env :=
  { entrySaveRaises := false, collectOk := true, draftRequestOk := true,
    submitDraftOk := true, recordDraftSaveRaises := false,
    draftResults := ["prp-spec-draft.md"],
    genContextOk := true, genRequestOk := true, submitGenOk := true,
    recordGenSaveRaises := false, genResults := ["prp-spec-001.md"] }

/-- Fixture for C4: clock readings of the first run (inside the rate window of
the prior submission at time 9000). -/
def c4T1 : Times :=
  { tGate1 := 10000, tSubmit1 := 10100, tGate2 := 10200, tSubmit2 := 10300, tFail := 0 }

/-- Fixture for C4: clock readings of the second run (the window has cleared). -/
def c4T2 : Times :=
  { tGate1 := 20000, tSubmit1 := 20100, tGate2 := 20200, tSubmit2 := 20300, tFail := 0 }

/-- Fixture for C4: the queued definition file. -/
def c4Entry : DirEntry := { name := "spec.md", mtime := 100, isFile := true }

/-- Fixture for C4: fresh directories with one queued definition. -/
def c4FS : FS :=
  { queue := [c4Entry], active := [], drafts := [], failed := [], failedLogs := [], batch := [] }

/-- Fixture for C4: one batch per hour. -/
def c4Cfg : Config := { MAX_BATCHES_PER_HOUR := 1, MIN_BATCH_INTERVAL_MINUTES := 60 }

/-- Fixture for C4: a submission at time 9000 already fills the hourly window
at the first run's rate gate. -/
def c4St0 : StateData :=
  { last_batch_time := some 9000, processed_files := [], current_processing := none,
    batch_count_1h := 1, batch_times := [9000] }

/-- C4, counterexample: the first run completes context collection and draft
request building, is denied at the first rate gate (its trace is exactly those
two collaborator calls, with no submission), and returns normally.  The next
`run_once` after the window clears *re-invokes* the context collector and the
request builder (its trace again begins with those two calls) instead of
proceeding directly to the draft submission — the short-circuit looks only at
`.md` files in the active directory, which exist only after a full success. -/
theorem C4_counterexample :
    (run_once c4Cfg (fun _ => c4Env) (fun _ => c4T1) c4FS c4St0).outcomes
      = [("spec.md", Except.ok ())] ∧
    (run_once c4Cfg (fun _ => c4Env) (fun _ => c4T1) c4FS c4St0).calls
      = [ScriptCall.collectContext ("prp/queue/spec.md") ("batch/spec-context.json"),
         ScriptCall.createBatchRequest ("batch/spec-context.json") ("draft")
           ("batch/spec-draft-request.jsonl")] ∧
    ((run_once c4Cfg (fun _ => c4Env) (fun _ => c4T2)
        (run_once c4Cfg (fun _ => c4Env) (fun _ => c4T1) c4FS c4St0).fs
        (run_once c4Cfg (fun _ => c4Env) (fun _ => c4T1) c4FS c4St0).state).calls.take 2
      = [ScriptCall.collectContext ("prp/queue/spec.md") ("batch/spec-context.json"),
         ScriptCall.createBatchRequest ("batch/spec-context.json") ("draft")
           ("batch/spec-draft-request.jsonl")]) := by
  exact ⟨by decide, by decide, by decide⟩

/-- C4, amended: an item deferred at the first rate gate is re-processed from
the start on the next run: whenever the active directory holds no `.md`
artifact (true after a gate-1 deferral, whose partial artifacts sit in the
batch staging directory), `process_definition` always begins by re-invoking
the context collector on the definition file — the short-circuit applies only
to `.md` artifacts in the active directory. -/
theorem C4_amended (cfg : Config) (env : Env) (t : Times) (fs : FS) (st : StateData)
    (f : DirEntry)
    (hentry : env.entrySaveRaises = false)
    (hact : (fs.active.filter (fun n => strEndsWith n (".md"))).isEmpty = true) :
    (process_definition cfg env t fs st f).calls.head?
      = some (ScriptCall.collectContext ("prp/queue/" ++ f.name)
          ("batch/" ++ pathStem f.name ++ "-context.json")) := by
  unfold process_definition
  dsimp only
  repeat' split
  all_goals first
    | rfl
    | (rcases pd3_calls_extends .. with ⟨r, hr⟩
       rw [hr]
       rfl)
    | simp_all

/-- C4, witness for the amended theorem: the deferred first run itself starts
with the collector call. -/
theorem C4_amended_witness :
    (process_definition c4Cfg c4Env c4T1 c4FS c4St0 c4Entry).calls.head?
      = some (ScriptCall.collectContext ("prp/queue/" ++ c4Entry.name)
          ("batch/" ++ pathStem c4Entry.name ++ "-context.json")) :=
  C4_amended c4Cfg c4Env c4T1 c4FS c4St0 c4Entry rfl rfl

/-- Fixture for C8: a fully succeeding environment. -/
def c8EnvOk : Env :=
  { entrySaveRaises := false, collectOk := true, draftRequestOk := true,
    submitDraftOk := true, recordDraftSaveRaises := false,
    draftResults := ["prp-b-draft.md"],
    genContextOk := true, genRequestOk := true, submitGenOk := true,
    recordGenSaveRaises := false, genResults := ["prp-b-001.md"] }

/-- Fixture for C8: the State Store save raises an I/O error for item `a.md`
(the `set_current` save at pipeline entry fails, e.g. disk full). -/
def c8EnvOf : String → Env := fun n =>
  if n == "a.md" then { c8EnvOk with entrySaveRaises := true } else c8EnvOk

/-- Fixture for C8: clock readings. -/
def c8Times : Times :=
  { tGate1 := 10000, tSubmit1 := 10100, tGate2 := 10200, tSubmit2 := 10300, tFail := 55 }

/-- Fixture for C8: two queued definitions, `a.md` older than `b.md`. -/
def c8FS : FS :=
  { queue := [{ name := "a.md", mtime := 1, isFile := true },
              { name := "b.md", mtime := 2, isFile := true }],
    active := [], drafts := [], failed := [], failedLogs := [], batch := [] }

/-- Fixture for C8: generous rate limits. -/
def c8Cfg : Config := { MAX_BATCHES_PER_HOUR := 10, MIN_BATCH_INTERVAL_MINUTES := 0 }

/-- C8, counterexample: a State Store save I/O error while processing the
first item does not stop the loop: `run_once` records the error as that
item's outcome and fully processes the next item — the `except Exception`
per-item handler catches it like any other failure, contradicting the claim
that state-store I/O errors propagate out of the loop and stop it. -/
theorem C8_counterexample :
    (run_once c8Cfg c8EnvOf (fun _ => c8Times) c8FS defaultStateData).outcomes
      = [("a.md", Except.error ("IOError")), ("b.md", Except.ok ())] := by
  decide

/-- C8, amended: every exception an item's pipeline raises — State Store save
I/O errors included — is caught by `run_once`'s per-item handler and the loop
continues: the loop always records one outcome per scanned item, in scan
order, whatever the outcomes of earlier items. -/
theorem C8_amended (cfg : Config) (envOf : String → Env) (timesOf : String → Times)
    (fs : FS) (st : StateData) :
    (run_once cfg envOf timesOf fs st).outcomes.map Prod.fst
      = (get_queued_files fs.queue st.processed_files).map DirEntry.name :=
  run_once_outcome_names ..

end ExecutePrps
